import Mathlib

/-!
Verification development for the paycrypt-admin-backend multi-chain
indexer/aggregator.  The JavaScript source is shallowly embedded: JS
numbers that matter to the claims are modelled as `Option ℚ` (with
`none` playing the role of `NaN`; every concrete value the claims touch
is exactly representable in binary floating point and all operations on
them are exact, so ℚ is a faithful carrier), Mongo collections as
association lists keyed the way the schema indexes key them, and the
async orchestration as explicit state passing with fallible external
calls given as `Except`-valued oracles.
-/

namespace Paycrypt

/-- A JavaScript number restricted to the finite/NaN fragment the code
exercises: `none` is `NaN`, `some q` a finite value.  (No code path in
the embedded fragment produces an infinity: the only divisor used is
`Math.pow(10, decimals)`, which is ≥ 1.) -/
def JsNum : Type := Option ℚ

instance : DecidableEq JsNum := inferInstanceAs (DecidableEq (Option ℚ))

/-- JS multiplication: `NaN` absorbs. -/
def JsNum.mul : JsNum → JsNum → JsNum
  | none, _ => none
  | some _, none => none
  | some a, some b => some (a * b)

/-- JS addition: `NaN` absorbs. -/
def JsNum.add : JsNum → JsNum → JsNum
  | none, _ => none
  | some _, none => none
  | some a, some b => some (a + b)

/-- Division of a JS number by a nonzero finite divisor (the embedded
code only ever divides by `Math.pow(10, decimals)`). -/
def JsNum.divBy (x : JsNum) (q : ℚ) : JsNum :=
  match x with
  | some a => some (a / q)
  | none => none

/-- JS falsiness of a number: `0` and `NaN` are falsy. -/
def jsFalsy : JsNum → Bool
  | none => true
  | some q => q == 0

/-- Numeric value of one decimal digit character, `none` otherwise. -/
def digitVal (c : Char) : Option Nat :=
  if c.isDigit then some (c.toNat - 48) else none

/-- Parse a nonempty all-digit character list as a natural number. -/
def parseDigits (cs : List Char) : Option Nat :=
  match cs with
  | [] => none
  | _ =>
    cs.foldl (fun acc c => acc.bind fun n => (digitVal c).map fun d => 10 * n + d)
      (some 0)

/-- Fractional value of a digit list read after the decimal point. -/
def parseFrac (cs : List Char) : Option ℚ :=
  (parseDigits cs).map fun n => (n : ℚ) / (10 : ℚ) ^ cs.length

/-- Unsigned part of `Number(s)` on a decimal literal. -/
def jsUnsigned (cs : List Char) : Option ℚ :=
  match cs.span (· ≠ '.') with
  | (intPart, []) => (parseDigits intPart).map (fun n => (n : ℚ))
  | (intPart, _ :: fracPart) =>
    match intPart, fracPart with
    | [], [] => none
    | [], f => parseFrac f
    | i, [] => (parseDigits i).map (fun n => (n : ℚ))
    | i, f => (parseDigits i).bind fun n => (parseFrac f).map fun q => (n : ℚ) + q

/-- `Number(s)` on an (optionally signed) decimal literal without
exponent: the fragment of JS string-to-number coercion the code feeds
(`totalVolume` and `amount` are decimal integer strings).  Non-numeric
input yields `none`, i.e. `NaN` — JS `Number` does NOT throw. -/
def jsNumber (s : String) : JsNum :=
  match s.data with
  | '-' :: rest => (jsUnsigned rest).map Neg.neg
  | cs => jsUnsigned cs

/-- The `{usd, ngn}` unit-price object returned per price-feed id. -/
structure PriceData where
  usd : JsNum
  ngn : JsNum
deriving DecidableEq

/-- Result object of `convertAmount`. -/
structure ConvResult where
  tokenAmount : JsNum
  usd : JsNum
  ngn : JsNum
deriving DecidableEq

/-- `PriceService.convertAmount` (src/services/priceService.js 163-181
and the variant in src/unnamed/part_005 181-202, which agree on string
input: the bigint branch there also just calls `Number`).  Guard: a
missing price object or a falsy `usd`/`ngn` field returns `null`.
Body: `Number(amount) / Math.pow(10, decimals)` then multiply by unit
prices.  `Number` of a non-numeric string is `NaN`, which throws
nothing, so the `catch` arm is unreachable for string input and a
NaN-valued result object is returned rather than `null` or an error. -/
def convertAmount (amount : String) (decimals : Nat) (priceData : Option PriceData) :
    Option ConvResult :=
  match priceData with
  | none => none
  | some p =>
    if jsFalsy p.usd || jsFalsy p.ngn then none
    else
      let tokenAmount := (jsNumber amount).divBy ((10 : ℚ) ^ decimals)
      some { tokenAmount := tokenAmount
             usd := tokenAmount.mul p.usd
             ngn := tokenAmount.mul p.ngn }

/-! ## Order store (src/unnamed/part_009 orderSchema, multichain variant)

One Order document per on-chain OrderCreated event; the collection has a
unique index on `(chainId, orderId)`, so it is modelled as an
association list looked up by that key. -/

structure OrderRec where
  chainId : Nat
  orderId : String
  requestId : String
  userWallet : String
  tokenAddress : String
  amount : String
  txnHash : String
  blockNumber : Nat
  timestamp : Nat
deriving DecidableEq

/-- The unique key of the multichain order schema:
`orderSchema.index({ chainId: 1, orderId: 1 }, { unique: true })`. -/
def okey (o : OrderRec) : Nat × String := (o.chainId, o.orderId)

def lookupOrder : List OrderRec → Nat × String → Option OrderRec
  | [], _ => none
  | o :: os, k => if okey o = k then some o else lookupOrder os k

/-- `Order.findOneAndUpdate({chainId, orderId}, orderData, {upsert: true,
new: true})`: overwrite the matching document's content, or insert a new
document when the key is absent.  The Boolean reports whether a new
document was created.  On a keyed upsert the duplicate-key (E11000) path
of the surrounding `catch` cannot fire: an existing key is updated, not
re-inserted. -/
def upsertOrder : List OrderRec → OrderRec → List OrderRec × Bool
  | [], o => ([o], true)
  | x :: xs, o =>
    if okey x = okey o then (o :: xs, false)
    else
      let r := upsertOrder xs o
      (x :: r.1, r.2)

/-- The per-batch save loop of the order-history sync job (the cron-job
document in src/services/priceService.js, lines 330-348): upsert each
fetched order in sequence; the second component counts newly created
documents. -/
def upsertAll : List OrderRec → List OrderRec → List OrderRec × Nat
  | store, [] => (store, 0)
  | store, o :: os =>
    let r := upsertOrder store o
    let rest := upsertAll r.1 os
    (rest.1, (if r.2 then 1 else 0) + rest.2)

/-! ## SyncStatus store (src/models/SyncStatus.js) -/

inductive SyncKind
  | metrics
  | orders
deriving DecidableEq

structure SyncStat where
  syncType : SyncKind
  chainId : Nat
  lastSyncBlock : Nat
  lastSyncTimestamp : Nat
  isRunning : Bool
  lastError : Option String
  successCount : Nat
  errorCount : Nat
deriving DecidableEq

/-- Schema defaults used when `getOrCreate` instantiates a new document. -/
def newSyncStat (kind : SyncKind) (chainId now : Nat) : SyncStat :=
  { syncType := kind, chainId := chainId, lastSyncBlock := 0, lastSyncTimestamp := now
    isRunning := false, lastError := none, successCount := 0, errorCount := 0 }

/-- The unique key `{ syncType: 1, chainId: 1 }` of syncStatusSchema. -/
def skey (st : SyncStat) : SyncKind × Nat := (st.syncType, st.chainId)

def lookupStat : List SyncStat → SyncKind × Nat → Option SyncStat
  | [], _ => none
  | st :: sts, k => if skey st = k then some st else lookupStat sts k

/-- Persisting a document: replace the record with the same unique key,
or append when absent. -/
def saveStat : List SyncStat → SyncStat → List SyncStat
  | [], st => [st]
  | x :: xs, st => if skey x = skey st then st :: xs else x :: saveStat xs st

/-- `SyncStatus.getOrCreate(syncType, chainId)`: find the cursor document
or create (and persist) one with schema defaults. -/
def getOrCreate (stats : List SyncStat) (kind : SyncKind) (chainId now : Nat) :
    SyncStat × List SyncStat :=
  match lookupStat stats (kind, chainId) with
  | some st => (st, stats)
  | none =>
    let st := newSyncStat kind chainId now
    (st, saveStat stats st)

/-- `syncStatus.updateSync(block, success, error)` (SyncStatus.js 64-83):
`lastSyncBlock = Math.max(lastSyncBlock, block)`, timestamp refreshed,
running flag cleared, error recorded, and the success or error counter
incremented. -/
def updateSync (st : SyncStat) (now block : Nat) (success : Bool)
    (error : Option String) : SyncStat :=
  { st with
    lastSyncBlock := max st.lastSyncBlock block
    lastSyncTimestamp := now
    isRunning := false
    lastError := error
    successCount := st.successCount + (if success then 1 else 0)
    errorCount := st.errorCount + (if success then 0 else 1) }

/-- `syncStatus.markAsRunning()`. -/
def markAsRunning (st : SyncStat) : SyncStat := { st with isRunning := true }

/-- One observable invocation outcome acting on a cursor document: an
`updateSync` call (success or failure), or a skip (the invocation
returned without touching the document). -/
inductive SyncEvent
  | update (now block : Nat) (success : Bool) (err : Option String)
  | skip

def applySyncEvent (st : SyncStat) : SyncEvent → SyncStat
  | .update now block success err => updateSync st now block success err
  | .skip => st

/-! ## ContractMetrics store and the world state -/

structure MetricsData where
  chainId : Nat
  orderCount : String
  totalVolume : String
  successfulOrders : String
  failedOrders : String
  timestamp : Nat
deriving DecidableEq

/-- The durable state the sync jobs read and write: the three Mongo
collections relevant to the claims. -/
structure World where
  orders : List OrderRec
  metrics : List MetricsData
  statuses : List SyncStat
deriving DecidableEq

/-! ## Order-history sync job (cron-job document in
src/services/priceService.js, multichain variant, lines 273-379) -/

/-- Starting-block computation (lines 296-308): `syncStatus.lastSyncBlock
|| 0`, and when that is 0, `Math.max(0, currentBlock - 100000)`. -/
def computeFromBlock (lastSyncBlock currentBlock : Int) : Int :=
  let fromBlock := lastSyncBlock
  if fromBlock = 0 then max 0 (currentBlock - 100000) else fromBlock

/-- `const batchSize = 5000` in the multichain order-history sync job. -/
def orderBatchSize : Nat := 5000

/-- Number of iterations of
`for (let start = fromBlock; start <= currentBlock; start += batchSize)`. -/
def batchCount (fromBlock currentBlock batchSize : Nat) : Nat :=
  if fromBlock ≤ currentBlock then (currentBlock - fromBlock) / batchSize + 1 else 0

/-- The successive values of `start` taken by that loop. -/
def batchStarts (fromBlock currentBlock batchSize : Nat) : List Nat :=
  (List.range (batchCount fromBlock currentBlock batchSize)).map
    fun i => fromBlock + i * batchSize

/-- `const end = Math.min(start + batchSize - 1, currentBlock)`. -/
def batchEnd (start currentBlock batchSize : Nat) : Nat :=
  min (start + batchSize - 1) currentBlock

/-- The batch loop of the order-history sync: per batch, fetch the
OrderCreated events (`fetch` is the outcome oracle of
`contractService.getOrderCreatedEvents`) and upsert them; a batch whose
fetch throws is logged and skipped (`// Continue with next batch`). -/
def processBatches (fetch : Nat → Nat → Except String (List OrderRec))
    (currentBlock batchSize : Nat) (starts : List Nat) (store : List OrderRec) :
    List OrderRec :=
  starts.foldl (fun st s =>
    match fetch s (batchEnd s currentBlock batchSize) with
    | .ok os => (upsertAll st os).1
    | .error _ => st) store

/-- `syncOrderHistoryForChain(chainId)`.  `isInit` models
`contractService.isInitialized()`; `curBlock` the outcome of
`getCurrentBlockNumber(chainId)` (awaited once in the body and, on the
failure path, once more under `.catch(() => 0)` — the oracle is
deterministic, so the retry observes the same outcome); `fetch` the
per-batch outcome of `getOrderCreatedEvents`.  The inter-batch
`setTimeout` delays only suspend and are not part of the state
semantics. -/
def syncOrderHistoryForChain (isInit : Bool) (curBlock : Except String Nat)
    (fetch : Nat → Nat → Except String (List OrderRec)) (chainId now : Nat)
    (w : World) : World :=
  let r := getOrCreate w.statuses .orders chainId now
  let st := r.1
  let statuses := r.2
  if st.isRunning then { w with statuses := statuses }
  else
    let stR := markAsRunning st
    let statuses := saveStat statuses stR
    if isInit = false then
      let cb := curBlock.toOption.getD 0
      let stF := updateSync stR now cb false (some "Contract service not initialized")
      { w with statuses := saveStat statuses stF }
    else
      match curBlock with
      | .error msg =>
        { w with statuses := saveStat statuses (updateSync stR now 0 false (some msg)) }
      | .ok currentBlock =>
        let fromBlock := (computeFromBlock (st.lastSyncBlock : Int) (currentBlock : Int)).toNat
        let store := processBatches fetch currentBlock orderBatchSize
          (batchStarts fromBlock currentBlock orderBatchSize) w.orders
        let stDone := updateSync stR now currentBlock true none
        { w with orders := store, statuses := saveStat statuses stDone }

/-- `syncContractMetricsForChain(chainId)` (same document, lines
202-245).  `metricsResult` is the outcome of
`contractService.getContractMetrics(chainId)`; `curBlock` of
`getCurrentBlockNumber(chainId)`. -/
def syncContractMetricsForChain (isInit : Bool)
    (metricsResult : Except String MetricsData) (curBlock : Except String Nat)
    (chainId now : Nat) (w : World) : World :=
  let r := getOrCreate w.statuses .metrics chainId now
  let st := r.1
  let statuses := r.2
  if st.isRunning then { w with statuses := statuses }
  else
    let stR := markAsRunning st
    let statuses := saveStat statuses stR
    if isInit = false then
      let stF := updateSync stR now 0 false (some "Contract service not initialized")
      { w with statuses := saveStat statuses stF }
    else
      match metricsResult with
      | .error msg =>
        { w with statuses := saveStat statuses (updateSync stR now 0 false (some msg)) }
      | .ok m =>
        match curBlock with
        | .error msg =>
          { w with metrics := w.metrics ++ [m],
                   statuses := saveStat statuses (updateSync stR now 0 false (some msg)) }
        | .ok cb =>
          { w with metrics := w.metrics ++ [m],
                   statuses := saveStat statuses (updateSync stR now cb true none) }

/-! ## Price cache and fetchPrices (PriceService) -/

structure CacheEntry where
  prices : PriceData
  timestamp : Nat
deriving DecidableEq

def lookupCache : List (String × CacheEntry) → String → Option CacheEntry
  | [], _ => none
  | e :: es, k => if e.1 = k then some e.2 else lookupCache es k

def saveCache : List (String × CacheEntry) → String → CacheEntry →
    List (String × CacheEntry)
  | [], k, e => [(k, e)]
  | x :: xs, k, e => if x.1 = k then (k, e) :: xs else x :: saveCache xs k e

/-- `[...new Set(ids)]`: de-duplicate keeping first occurrences. -/
def uniqueFirst (l : List String) : List String :=
  l.foldl (fun acc x => if x ∈ acc then acc else acc ++ [x]) []

/-- The object built by `for (const id of uniqueIds) { const cached =
this.priceCache.get(id); if (cached) cachedPrices[id] = cached.prices }`. -/
def cachedSubset (cache : List (String × CacheEntry)) (ids : List String) :
    List (String × PriceData) :=
  ids.filterMap fun k => (lookupCache cache k).map fun e => (k, e.prices)

/-- `uniqueIds.every(id => cached && (now - cached.timestamp) < cacheExpiry)`. -/
def allCached (expiry : Nat) (cache : List (String × CacheEntry)) (now : Nat)
    (ids : List String) : Bool :=
  ids.all fun k =>
    match lookupCache cache k with
    | some e => decide (now - e.timestamp < expiry)
    | none => false

/-- Caching of a successful upstream response. -/
def storeAll (cache : List (String × CacheEntry))
    (data : List (String × PriceData)) (now : Nat) : List (String × CacheEntry) :=
  data.foldl (fun c kv => saveCache c kv.1 { prices := kv.2, timestamp := now }) cache

/-- `PriceService.fetchPrices(coinGeckoIds)` (src/services/priceService.js
59-131 and src/unnamed/part_005 63-141, which share this structure；
`upstream` models the single axios GET and the rate-limiting sleep is
time-only).  Returns the call outcome and the updated cache:
empty request → `{}`; all ids fresh in cache → cached values without an
upstream call; otherwise call upstream, caching on success; on upstream
failure fall back to any cached values (stale ones included) and throw
only when no requested id has a cache entry. -/
def fetchPrices (expiry : Nat) (cache : List (String × CacheEntry)) (now : Nat)
    (ids : List String) (upstream : Except Unit (List (String × PriceData))) :
    Except Unit (List (String × PriceData)) × List (String × CacheEntry) :=
  if ids.isEmpty then (.ok [], cache)
  else
    let uniqueIds := uniqueFirst ids
    if allCached expiry cache now uniqueIds then
      (.ok (cachedSubset cache uniqueIds), cache)
    else
      match upstream with
      | .ok data => (.ok data, storeAll cache data now)
      | .error _ =>
        let cachedPrices := cachedSubset cache uniqueIds
        if cachedPrices.isEmpty then (.error (), cache)
        else (.ok cachedPrices, cache)

/-! ## Chain Connector RPC rate limiting (src/unnamed/part_003) -/

/-- `this.minTimeBetweenRpcCalls = 1000`. -/
def minTimeBetweenRpcCalls : Int := 1000

/-- `applyRpcRateLimit()` (part_003 81-91) over an idealized exact clock:
from the stored `lastRpcCall` timestamp and the current time, the wait
inserted and the new `lastRpcCall` (the instant at which the following
RPC call is issued). -/
def applyRpcRateLimit (lastRpcCall now : Int) : Int × Int :=
  let timeSinceLastCall := now - lastRpcCall
  if timeSinceLastCall < minTimeBetweenRpcCalls then
    (minTimeBetweenRpcCalls - timeSinceLastCall,
      now + (minTimeBetweenRpcCalls - timeSinceLastCall))
  else (0, now)

inductive RpcKind
  | getOrderCounter
  | getTotalVolume
  | getTotalSuccessfulOrders
  | getTotalFailedOrders
  | getBlockNumber
  | queryFilter
  | getBlock
  | getSupportedTokens
  | getTokenDetails
deriving DecidableEq

/-- One awaited step of a connector method: a rate-limit invocation, or
an RPC interaction point issuing one or more simultaneous provider
calls (`Promise.all` fires its calls together). -/
inductive RpcAction
  | rateLimit
  | rpc (calls : List RpcKind)
deriving DecidableEq

/-- Every RPC interaction point in the trace is immediately preceded by
an `applyRpcRateLimit` invocation. -/
def rpcGuarded : List RpcAction → Bool
  | [] => true
  | .rpc _ :: _ => false
  | .rateLimit :: .rpc _ :: rest => rpcGuarded rest
  | .rateLimit :: rest => rpcGuarded rest

/-- `getContractMetrics` (part_003 93-134): one rate limit, then four
counter reads fired together by `Promise.all`. -/
def getContractMetricsTrace : List RpcAction :=
  [.rateLimit,
    .rpc [.getOrderCounter, .getTotalVolume, .getTotalSuccessfulOrders,
      .getTotalFailedOrders]]

/-- `getCurrentBlockNumber` (part_003 257-275). -/
def getCurrentBlockNumberTrace : List RpcAction :=
  [.rateLimit, .rpc [.getBlockNumber]]

/-- `getSupportedTokens` (part_003 293-313). -/
def getSupportedTokensTrace : List RpcAction :=
  [.rateLimit, .rpc [.getSupportedTokens]]

/-- `getTokenDetails` (part_003 315-342). -/
def getTokenDetailsTrace : List RpcAction :=
  [.rateLimit, .rpc [.getTokenDetails]]

/-- `getBlockTimestamp` (part_003 277-291): `provider.getBlock` is
awaited with NO `applyRpcRateLimit` call anywhere in the method. -/
def getBlockTimestampTrace : List RpcAction :=
  [.rpc [.getBlock]]

/-- RPC interaction points of `getOrderCreatedEvents` (part_003
157-255): an optional current-block lookup (when invoked with `toBlock =
'latest'`), one rate-limited `queryFilter` per block sub-batch (a single
one for small ranges), and one rate-limited `getBlock` per block whose
timestamp is not in the per-invocation cache.  A sub-batch whose query
throws still performed its rate limit and query. -/
def getOrderCreatedEventsTrace (latestLookup : Bool)
    (nBatches uncachedBlocks : Nat) : List RpcAction :=
  (if latestLookup then [.rateLimit, .rpc [.getBlockNumber]] else []) ++
    (List.range nBatches).flatMap (fun _ => [.rateLimit, .rpc [.queryFilter]]) ++
    (List.range uncachedBlocks).flatMap (fun _ => [.rateLimit, .rpc [.getBlock]])

/-! ## Token symbol resolution and the volume aggregator -/

def lowerChars (s : String) : List Char := s.data.map Char.toLower

/-- JS `name.includes(sub)` on lowercased names. -/
def includesSub (name : List Char) (sub : String) : Bool :=
  decide (sub.data <:+: name)

/-- `PriceService.getTokenSymbol(tokenName)`: substring heuristic. -/
def getTokenSymbol (tokenName : String) : Option String :=
  let name := lowerChars tokenName
  if includesSub name "usdt" || includesSub name "tether" then some "usdt"
  else if includesSub name "usdc" || includesSub name "usd coin" then some "usdc"
  else if includesSub name "send" then some "send"
  else if includesSub name "cusd" || includesSub name "celo dollar" then some "cusd"
  else if includesSub name "celo" && !includesSub name "dollar" then some "celo"
  else if includesSub name "bitcoin" || includesSub name "btc" then some "btc"
  else if includesSub name "ethereum" || includesSub name "eth" then some "eth"
  else none

/-- `TOKEN_ID_MAP`. -/
def tokenIdMap : List (String × String) :=
  [("usdt", "tether"), ("usdc", "usd-coin"), ("send", "send-token-2"),
    ("cusd", "celo-dollar"), ("celo", "celo"), ("btc", "bitcoin"),
    ("eth", "ethereum"), ("bnb", "binancecoin"), ("ada", "cardano"),
    ("sol", "solana"), ("matic", "polygon"), ("link", "chainlink")]

/-- `PriceService.getCoinGeckoId(tokenSymbol)`. -/
def getCoinGeckoId (tokenSymbol : String) : Option String :=
  if tokenSymbol = "" then none
  else tokenIdMap.lookup (String.mk (lowerChars tokenSymbol))

/-- One entry of `getAllTokensAcrossChains`'s result. -/
structure TokenDetails where
  chainId : Nat
  tokenAddress : String
  name : String
  decimals : Nat
  totalVolume : String
  isActive : Bool
deriving DecidableEq

/-- One entry of a volume snapshot's `tokenBreakdown`. -/
structure BreakdownEntry where
  chainId : Nat
  tokenAddress : String
  tokenName : String
  tokenSymbol : String
  totalVolume : String
  volumeUSD : JsNum
  volumeNGN : JsNum
  priceUSD : JsNum
  priceNGN : JsNum
deriving DecidableEq

/-- Running accumulation state of `syncTotalVolume`'s token loop. -/
structure VolumeAcc where
  totalUSD : JsNum
  totalNGN : JsNum
  tokenBreakdown : List BreakdownEntry
deriving DecidableEq

/-- `symbol → coinGeckoId → prices[coinGeckoId]` as composed inside the
loop; `prices` is the mapping returned by `fetchPrices`. -/
def resolvePrice (prices : String → Option PriceData) (t : TokenDetails) :
    Option PriceData :=
  ((getTokenSymbol t.name).bind getCoinGeckoId).bind prices

/-- One iteration of `syncTotalVolume`'s token loop (cron-job document in
src/services/priceService.js, lines 477-513): inactive or zero-volume
tokens are skipped, tokens without a resolved price are skipped, and —
because `convertAmount` returns `null` on falsy `usd`/`ngn` — tokens
whose fetched unit price is 0 are skipped too; otherwise the converted
values are added to the totals and a breakdown entry is appended. -/
def volumeStep (prices : String → Option PriceData) (acc : VolumeAcc)
    (t : TokenDetails) : VolumeAcc :=
  if !t.isActive || t.totalVolume = "0" then acc
  else
    match resolvePrice prices t with
    | none => acc
    | some p =>
      match convertAmount t.totalVolume t.decimals (some p) with
      | none => acc
      | some conv =>
        { totalUSD := acc.totalUSD.add conv.usd
          totalNGN := acc.totalNGN.add conv.ngn
          tokenBreakdown := acc.tokenBreakdown ++
            [{ chainId := t.chainId
               tokenAddress := String.mk (lowerChars t.tokenAddress)
               tokenName := t.name
               tokenSymbol := (getTokenSymbol t.name).getD "UNKNOWN"
               totalVolume := t.totalVolume
               volumeUSD := conv.usd
               volumeNGN := conv.ngn
               priceUSD := p.usd
               priceNGN := p.ngn }] }

/-- `syncTotalVolume`'s accumulation over the full token list, starting
from `totalUSD = 0`, `totalNGN = 0`, empty breakdown. -/
def aggregateVolume (prices : String → Option PriceData)
    (tokens : List TokenDetails) : VolumeAcc :=
  tokens.foldl (volumeStep prices) { totalUSD := some 0, totalNGN := some 0, tokenBreakdown := [] }

/-! ## Claim theorems -/

theorem updateSync_lastSyncBlock (st : SyncStat) (now block : Nat) (success : Bool)
    (err : Option String) :
    (updateSync st now block success err).lastSyncBlock = max st.lastSyncBlock block := rfl

theorem applySyncEvent_mono (st : SyncStat) (e : SyncEvent) :
    st.lastSyncBlock ≤ (applySyncEvent st e).lastSyncBlock := by
  cases e with
  | update n b s er =>
    simp only [applySyncEvent, updateSync_lastSyncBlock]
    exact Nat.le_max_left _ _
  | skip => exact Nat.le_refl _

/-- C2: every `updateSync` sets the cursor to the maximum of its previous
value and the reported block, so over any sequence of sync invocation
outcomes (updates, successful or failed, and skips) the `lastSyncBlock`
field of a cursor document is non-decreasing. -/
theorem cursorMonotone :
    (∀ (st : SyncStat) (now block : Nat) (success : Bool) (err : Option String),
        (updateSync st now block success err).lastSyncBlock = max st.lastSyncBlock block) ∧
    (∀ (st : SyncStat) (evs : List SyncEvent),
        st.lastSyncBlock ≤ (evs.foldl applySyncEvent st).lastSyncBlock) := by
  refine ⟨fun st now block success err => rfl, fun st evs => ?_⟩
  induction evs generalizing st with
  | nil => exact Nat.le_refl _
  | cons e evs ih =>
    exact Nat.le_trans (applySyncEvent_mono st e) (ih (applySyncEvent st e))

/-- C5: a never-synced cursor (`lastSyncBlock = 0`) starts the scan at
`max(0, currentBlock - 100000)` — in particular at block 100000 when the
current block is 200000 — a nonzero cursor resumes exactly from its
value, and the first batch of the scan indeed begins at the computed
starting block. -/
theorem initialLookbackStart :
    computeFromBlock 0 200000 = 100000 ∧
    (∀ currentBlock : Int, computeFromBlock 0 currentBlock = max 0 (currentBlock - 100000)) ∧
    (∀ lastSyncBlock currentBlock : Int,
        lastSyncBlock ≠ 0 → computeFromBlock lastSyncBlock currentBlock = lastSyncBlock) ∧
    (∀ fromBlock currentBlock : Nat, fromBlock ≤ currentBlock →
        (batchStarts fromBlock currentBlock orderBatchSize).head? = some fromBlock) := by
  refine ⟨by decide, fun currentBlock => rfl, fun lastSyncBlock currentBlock h => ?_,
    fun fromBlock currentBlock h => ?_⟩
  · simp [computeFromBlock, h]
  · have hc : batchCount fromBlock currentBlock orderBatchSize =
        (currentBlock - fromBlock) / orderBatchSize + 1 := by
      simp [batchCount, h]
    simp [batchStarts, hc, List.range_succ_eq_map]

/-- C5 witness: a nonzero cursor (12345) resumes from 12345, and a scan
from block 100000 to 200000 has its first batch start at 100000. -/
theorem initialLookbackStart_witness :
    ((12345 : Int) ≠ 0 ∧ computeFromBlock 12345 200000 = 12345) ∧
    (100000 ≤ 200000 ∧
      (batchStarts 100000 200000 orderBatchSize).head? = some 100000) :=
  ⟨⟨by decide, initialLookbackStart.2.2.1 12345 200000 (by decide)⟩,
    ⟨by decide, initialLookbackStart.2.2.2 100000 200000 (by decide)⟩⟩

/-- C8: converting amount "1500000" with 6 decimals at unit prices
usd = 1.0, ngn = 1536.0 yields exactly tokenAmount 1.5, usd 1.5,
ngn 2304 (all values exact in binary floating point, so the ℚ model
computes the same numbers the JS code does). -/
theorem conversionCorrectness :
    convertAmount "1500000" 6 (some { usd := some 1, ngn := some 1536 }) =
      some { tokenAmount := some 1.5, usd := some 1.5, ngn := some 2304 } := by
  have h1 : jsNumber "1500000" = some 1500000 := by decide
  have h2 : jsFalsy (some 1) = false := by decide
  have h3 : jsFalsy (some 1536) = false := by decide
  simp only [convertAmount, h1, h2, h3, Bool.or_self, Bool.false_eq_true, if_false,
    JsNum.divBy, JsNum.mul, Option.some.injEq]
  norm_num

/-- C7 counterexample: on the non-numeric amount "abc", `Number` yields
`NaN`, nothing throws, and `convertAmount` returns a NaN-valued result
object — it does not fail with a ConversionError (nor return `null`). -/
theorem convertAmountNonNumericReturnsResult :
    convertAmount "abc" 6 (some { usd := some 1, ngn := some 1536 }) =
      some { tokenAmount := none, usd := none, ngn := none } := by decide

/-- C7 (amended): `convertAmount` is pure; for numeric amount strings it
divides the parsed raw amount by `10 ^ decimals` before multiplying by
the unit prices; for non-numeric amount strings (with a well-formed,
non-falsy price object) it does NOT fail: it returns a result object
whose `tokenAmount`, `usd` and `ngn` fields are all `NaN`. -/
theorem convertAmountDividesThenMultiplies :
    (∀ (amount : String) (decimals : Nat) (p : PriceData) (q u v : ℚ),
        jsNumber amount = some q → p.usd = some u → p.ngn = some v →
        jsFalsy p.usd = false → jsFalsy p.ngn = false →
        convertAmount amount decimals (some p) =
          some { tokenAmount := some (q / 10 ^ decimals)
                 usd := some (q / 10 ^ decimals * u)
                 ngn := some (q / 10 ^ decimals * v) }) ∧
    (∀ (amount : String) (decimals : Nat) (p : PriceData),
        jsNumber amount = none → jsFalsy p.usd = false → jsFalsy p.ngn = false →
        convertAmount amount decimals (some p) =
          some { tokenAmount := none, usd := none, ngn := none }) := by
  constructor
  · intro amount decimals p q u v hq hu hv hfu hfn
    rw [hu] at hfu
    rw [hv] at hfn
    simp [convertAmount, hfu, hfn, hq, hu, hv, JsNum.divBy, JsNum.mul]
  · intro amount decimals p hq hfu hfn
    simp [convertAmount, hfu, hfn, hq, JsNum.divBy, JsNum.mul]

/-- C7 witness: both branches of the amended statement at concrete
inputs — the numeric amount "1500000" and the non-numeric amount "abc". -/
theorem convertAmountDividesThenMultiplies_witness :
    (convertAmount "1500000" 6 (some { usd := some 1, ngn := some 1536 }) =
        some { tokenAmount := some ((1500000 : ℚ) / 10 ^ 6)
               usd := some ((1500000 : ℚ) / 10 ^ 6 * 1)
               ngn := some ((1500000 : ℚ) / 10 ^ 6 * 1536) }) ∧
    (convertAmount "abc" 6 (some { usd := some 1, ngn := some 1536 }) =
        some { tokenAmount := none, usd := none, ngn := none }) :=
  ⟨convertAmountDividesThenMultiplies.1 "1500000" 6 { usd := some 1, ngn := some 1536 }
      1500000 1 1536 (by decide) rfl rfl (by decide) (by decide),
    convertAmountDividesThenMultiplies.2 "abc" 6 { usd := some 1, ngn := some 1536 }
      (by decide) (by decide) (by decide)⟩

theorem rpcGuarded_pair_append (k : List RpcKind) (t : List RpcAction) :
    rpcGuarded ([RpcAction.rateLimit, RpcAction.rpc k] ++ t) = rpcGuarded t := rfl

theorem rpcGuarded_blocks {α : Type} (l : List α) (k : List RpcKind) (t : List RpcAction) :
    rpcGuarded ((l.flatMap fun _ => [RpcAction.rateLimit, RpcAction.rpc k]) ++ t) =
      rpcGuarded t := by
  induction l with
  | nil => rfl
  | cons a l ih =>
    simp only [List.flatMap_cons, List.append_assoc]
    exact ih

/-- C9 counterexample: `getBlockTimestamp` issues its `provider.getBlock`
RPC call with no preceding `applyRpcRateLimit` invocation, so it is not
the case that every chain-RPC call of the connector is preceded by the
minimum inter-call delay. -/
theorem getBlockTimestampUnlimited :
    rpcGuarded getBlockTimestampTrace = false := by decide

/-- C9 (amended): `applyRpcRateLimit` guarantees the issued call is at
least the 1-second cooldown after the recorded previous call, and every
RPC interaction point of `getContractMetrics` (whose four counter reads
are fired together after a single delay), `getCurrentBlockNumber`,
`getSupportedTokens`, `getTokenDetails` and `getOrderCreatedEvents` is
immediately preceded by an `applyRpcRateLimit` invocation — but
`getBlockTimestamp` issues its block lookup with no rate limit at all. -/
theorem rpcRateLimitCoverage :
    (∀ lastRpcCall now : Int, lastRpcCall ≤ now →
        minTimeBetweenRpcCalls ≤ (applyRpcRateLimit lastRpcCall now).2 - lastRpcCall) ∧
    rpcGuarded getContractMetricsTrace = true ∧
    rpcGuarded getCurrentBlockNumberTrace = true ∧
    rpcGuarded getSupportedTokensTrace = true ∧
    rpcGuarded getTokenDetailsTrace = true ∧
    (∀ (latestLookup : Bool) (nBatches uncachedBlocks : Nat),
        rpcGuarded (getOrderCreatedEventsTrace latestLookup nBatches uncachedBlocks) = true) ∧
    rpcGuarded getBlockTimestampTrace = false := by
  refine ⟨?_, by decide, by decide, by decide, by decide, ?_, by decide⟩
  · intro lastRpcCall now h
    simp only [applyRpcRateLimit, minTimeBetweenRpcCalls]
    split <;> omega
  · intro latestLookup nBatches uncachedBlocks
    have h2 : rpcGuarded
        (((List.range uncachedBlocks).flatMap
          fun _ => [RpcAction.rateLimit, RpcAction.rpc [RpcKind.getBlock]])) = true := by
      have := rpcGuarded_blocks (List.range uncachedBlocks) [RpcKind.getBlock] []
      simpa using this
    have h1 : rpcGuarded
        (((List.range nBatches).flatMap
            fun _ => [RpcAction.rateLimit, RpcAction.rpc [RpcKind.queryFilter]]) ++
          ((List.range uncachedBlocks).flatMap
            fun _ => [RpcAction.rateLimit, RpcAction.rpc [RpcKind.getBlock]])) = true := by
      rw [rpcGuarded_blocks]
      exact h2
    cases latestLookup with
    | false => simpa [getOrderCreatedEventsTrace, List.append_assoc] using h1
    | true =>
      simpa [getOrderCreatedEventsTrace, List.append_assoc, rpcGuarded_pair_append] using h1

/-- C9 witness: the cooldown bound at the concrete clock (previous call
at 0, now 500): the issued call happens at least 1000 ms after 0. -/
theorem rpcRateLimitCoverage_witness :
    (0 : Int) ≤ 500 ∧
      minTimeBetweenRpcCalls ≤ (applyRpcRateLimit 0 500).2 - 0 :=
  ⟨by decide, rpcRateLimitCoverage.1 0 500 (by decide)⟩

theorem convertAmount_falsy (amount : String) (decimals : Nat) (p : PriceData)
    (h : jsFalsy p.usd = true ∨ jsFalsy p.ngn = true) :
    convertAmount amount decimals (some p) = none := by
  rcases h with h | h <;> simp [convertAmount, h]

theorem volumeStep_skip_falsy (prices : String → Option PriceData) (t : TokenDetails)
    (p : PriceData) (hres : resolvePrice prices t = some p)
    (h : jsFalsy p.usd = true ∨ jsFalsy p.ngn = true) (acc : VolumeAcc) :
    volumeStep prices acc t = acc := by
  have hconv := convertAmount_falsy t.totalVolume t.decimals p h
  simp [volumeStep, hres, hconv]

/-- C10: `convertAmount` returns `null` whenever the price object is
missing or its `usd`/`ngn` field is falsy — a genuine unit price of 0
included — so the volume aggregator contributes nothing for such a
token: the loop iteration leaves the accumulator untouched and the
aggregate over any token list with that token removed is identical (no
zero-valued breakdown entry, no change to the totals). -/
theorem zeroPriceOmitted (prices : String → Option PriceData) (t : TokenDetails)
    (p : PriceData) (hres : resolvePrice prices t = some p)
    (hfalsy : jsFalsy p.usd = true ∨ jsFalsy p.ngn = true) :
    (∀ (amount : String) (decimals : Nat), convertAmount amount decimals none = none) ∧
    (∀ (amount : String) (decimals : Nat), convertAmount amount decimals (some p) = none) ∧
    (∀ acc, volumeStep prices acc t = acc) ∧
    (∀ pre post, aggregateVolume prices (pre ++ t :: post) =
        aggregateVolume prices (pre ++ post)) := by
  refine ⟨fun amount decimals => rfl,
    fun amount decimals => convertAmount_falsy amount decimals p hfalsy,
    fun acc => volumeStep_skip_falsy prices t p hres hfalsy acc,
    fun pre post => ?_⟩
  unfold aggregateVolume
  rw [List.foldl_append, List.foldl_append, List.foldl_cons,
    volumeStep_skip_falsy prices t p hres hfalsy]

/-- Price table for the C10 witness: tether trades at exactly 0 USD. -/
def demoPrices : String → Option PriceData :=
  fun k => if k = "tether" then some { usd := some 0, ngn := some 1536 } else none

/-- An active, nonzero-volume token for the C10 witness. -/
def demoZeroToken : TokenDetails :=
  { chainId := 8453, tokenAddress := "0xAAA", name := "USDT Token", decimals := 6
    totalVolume := "1500000", isActive := true }

/-- C10 witness: the zero-priced active token is resolved, its price is
falsy, and the aggregator omits it. -/
theorem zeroPriceOmitted_witness :
    (resolvePrice demoPrices demoZeroToken = some { usd := some 0, ngn := some 1536 } ∧
      jsFalsy (some 0) = true) ∧
    ((∀ (amount : String) (decimals : Nat), convertAmount amount decimals none = none) ∧
      (∀ (amount : String) (decimals : Nat),
        convertAmount amount decimals (some { usd := some 0, ngn := some 1536 }) = none) ∧
      (∀ acc, volumeStep demoPrices acc demoZeroToken = acc) ∧
      (∀ pre post, aggregateVolume demoPrices (pre ++ demoZeroToken :: post) =
          aggregateVolume demoPrices (pre ++ post))) :=
  ⟨⟨by decide, by decide⟩,
    zeroPriceOmitted demoPrices demoZeroToken { usd := some 0, ngn := some 1536 }
      (by decide) (Or.inl (by decide))⟩

theorem mem_uniqueFirst_go (x : String) (l acc : List String) :
    x ∈ l.foldl (fun acc x => if x ∈ acc then acc else acc ++ [x]) acc ↔
      x ∈ acc ∨ x ∈ l := by
  induction l generalizing acc with
  | nil => simp
  | cons a l ih =>
    simp only [List.foldl_cons, ih, List.mem_cons]
    by_cases ha : a ∈ acc
    · simp only [if_pos ha]
      constructor
      · tauto
      · rintro (h | h | h)
        · tauto
        · exact Or.inl (h ▸ ha)
        · tauto
    · simp only [if_neg ha, List.mem_append, List.mem_singleton]
      tauto

theorem mem_uniqueFirst (x : String) (l : List String) :
    x ∈ uniqueFirst l ↔ x ∈ l := by
  simpa using mem_uniqueFirst_go x l []

theorem cachedSubset_eq_nil_iff (cache : List (String × CacheEntry)) (ids : List String) :
    cachedSubset cache ids = [] ↔ ∀ k ∈ ids, lookupCache cache k = none := by
  simp [cachedSubset, List.filterMap_eq_nil_iff, Option.map_eq_none']

theorem allCached_isSome (expiry : Nat) (cache : List (String × CacheEntry)) (now : Nat)
    (ids : List String) (h : allCached expiry cache now ids = true) (k : String)
    (hk : k ∈ ids) : (lookupCache cache k).isSome = true := by
  simp only [allCached, List.all_eq_true] at h
  have hx := h k hk
  cases hl : lookupCache cache k with
  | some e => rfl
  | none => rw [hl] at hx; exact absurd hx (by simp)

/-- C6: with a failing upstream price request, `fetchPrices` succeeds
precisely when the request is empty or some requested id has a cache
entry — however stale — and in every successful case the returned values
are exactly the cached per-id prices; it raises only when no requested
id has any cached value. -/
theorem priceFallbackOnUpstreamFailure (expiry : Nat)
    (cache : List (String × CacheEntry)) (now : Nat) (ids : List String) :
    ((∃ r, (fetchPrices expiry cache now ids (.error ())).1 = .ok r) ↔
      (ids = [] ∨ ∃ k ∈ ids, (lookupCache cache k).isSome = true)) ∧
    (∀ r, (fetchPrices expiry cache now ids (.error ())).1 = .ok r →
        r = cachedSubset cache (uniqueFirst ids)) := by
  cases hids : ids.isEmpty with
  | true =>
    have hnil : ids = [] := List.isEmpty_iff.mp hids
    subst hnil
    simp [fetchPrices, uniqueFirst, cachedSubset]
  | false =>
    have hne : ids ≠ [] := by
      intro h; subst h; simp at hids
    cases hall : allCached expiry cache now (uniqueFirst ids) with
    | true =>
      have hok : (fetchPrices expiry cache now ids (.error ())).1 =
          .ok (cachedSubset cache (uniqueFirst ids)) := by
        simp [fetchPrices, hids, hall]
      refine ⟨?_, ?_⟩
      · rw [hok]
        constructor
        · intro _
          obtain ⟨k, hk⟩ := List.exists_mem_of_ne_nil ids hne
          refine Or.inr ⟨k, hk, ?_⟩
          exact allCached_isSome expiry cache now (uniqueFirst ids) hall k
            ((mem_uniqueFirst k ids).mpr hk)
        · intro _; exact ⟨_, rfl⟩
      · intro r hr
        rw [hok] at hr
        exact (Except.ok.injEq _ _ ▸ hr).symm ▸ rfl
    | false =>
      cases hcp : (cachedSubset cache (uniqueFirst ids)).isEmpty with
      | true =>
        have hcnil : cachedSubset cache (uniqueFirst ids) = [] :=
          List.isEmpty_iff.mp hcp
        have herr : (fetchPrices expiry cache now ids (.error ())).1 = .error () := by
          simp [fetchPrices, hids, hall, hcp]
        refine ⟨?_, ?_⟩
        · rw [herr]
          constructor
          · rintro ⟨r, hr⟩; cases hr
          · rintro (h | ⟨k, hk, hsome⟩)
            · exact absurd h hne
            · have := (cachedSubset_eq_nil_iff cache (uniqueFirst ids)).mp hcnil k
                ((mem_uniqueFirst k ids).mpr hk)
              rw [this] at hsome
              exact absurd hsome (by simp)
        · intro r hr
          rw [herr] at hr
          cases hr
      | false =>
        have hcnotnil : cachedSubset cache (uniqueFirst ids) ≠ [] := by
          intro h
          rw [h] at hcp
          simp at hcp
        have hok : (fetchPrices expiry cache now ids (.error ())).1 =
            .ok (cachedSubset cache (uniqueFirst ids)) := by
          simp [fetchPrices, hids, hall, hcp]
        refine ⟨?_, ?_⟩
        · rw [hok]
          constructor
          · intro _
            obtain ⟨k, hk⟩ : ∃ k ∈ uniqueFirst ids, (lookupCache cache k).isSome = true := by
              by_contra hno
              push_neg at hno
              refine hcnotnil ((cachedSubset_eq_nil_iff cache (uniqueFirst ids)).mpr ?_)
              intro k hk
              have := hno k hk
              cases hl : lookupCache cache k with
              | some e => rw [hl] at this; simp at this
              | none => rfl
            exact Or.inr ⟨k, (mem_uniqueFirst k ids).mp hk.1, hk.2⟩
          · intro _; exact ⟨_, rfl⟩
        · intro r hr
          rw [hok] at hr
          exact (Except.ok.injEq _ _ ▸ hr).symm ▸ rfl

theorem upsertOrder_already (store : List OrderRec) (o : OrderRec)
    (h : lookupOrder store (okey o) = some o) : upsertOrder store o = (store, false) := by
  induction store with
  | nil => simp [lookupOrder] at h
  | cons x xs ih =>
    by_cases hx : okey x = okey o
    · have hxo : x = o := by
        simp only [lookupOrder, if_pos hx] at h
        exact Option.some.inj h
      simp [upsertOrder, hx, hxo]
    · simp only [lookupOrder, if_neg hx] at h
      simp [upsertOrder, hx, ih h]

theorem upsertAll_already (store events : List OrderRec)
    (h : ∀ o ∈ events, lookupOrder store (okey o) = some o) :
    upsertAll store events = (store, 0) := by
  induction events with
  | nil => rfl
  | cons o os ih =>
    have h0 := upsertOrder_already store o (h o (List.mem_cons_self o os))
    simp [upsertAll, h0, ih fun o ho => h o (List.mem_cons_of_mem _ ho)]

theorem processBatches_already (fetch : Nat → Nat → Except String (List OrderRec))
    (currentBlock batchSize : Nat) (starts : List Nat) (store : List OrderRec)
    (h : ∀ s ∈ starts, ∀ os, fetch s (batchEnd s currentBlock batchSize) = .ok os →
        ∀ o ∈ os, lookupOrder store (okey o) = some o) :
    processBatches fetch currentBlock batchSize starts store = store := by
  induction starts with
  | nil => rfl
  | cons s rest ih =>
    have hstep : (match fetch s (batchEnd s currentBlock batchSize) with
        | .ok os => (upsertAll store os).1
        | .error _ => store) = store := by
      cases hf : fetch s (batchEnd s currentBlock batchSize) with
      | ok os =>
        simp [upsertAll_already store os (h s (List.mem_cons_self s rest) os hf)]
      | error e => rfl
    simp only [processBatches, List.foldl_cons] at *
    rw [hstep]
    exact ih fun s hs => h s (List.mem_cons_of_mem _ hs)

/-- Re-running the order sync on a store where both fetched events are
already ingested with identical content: the C1 run lemma below needs
the no-op to hold through the full per-chain sync as well. -/
theorem lookupStat_key (l : List SyncStat) (k : SyncKind × Nat) (st : SyncStat)
    (h : lookupStat l k = some st) : skey st = k := by
  induction l with
  | nil => simp [lookupStat] at h
  | cons x xs ih =>
    by_cases hx : skey x = k
    · simp only [lookupStat, if_pos hx] at h
      have hxs : x = st := Option.some.inj h
      rw [hxs] at hx
      exact hx
    · simp only [lookupStat, if_neg hx] at h
      exact ih h

theorem lookupStat_saveStat_self (l : List SyncStat) (st : SyncStat) :
    lookupStat (saveStat l st) (skey st) = some st := by
  induction l with
  | nil => simp [saveStat, lookupStat]
  | cons x xs ih =>
    by_cases hx : skey x = skey st
    · simp [saveStat, hx, lookupStat]
    · simp [saveStat, hx, lookupStat, ih]

theorem getOrCreate_found (stats : List SyncStat) (kind : SyncKind) (chainId now : Nat)
    (st : SyncStat) (h : lookupStat stats (kind, chainId) = some st) :
    getOrCreate stats kind chainId now = (st, stats) := by
  simp [getOrCreate, h]

/-- Execution of `syncOrderHistoryForChain` on the happy path (cursor
present and idle, service initialized, current block known): the batch
loop runs over the computed range and the cursor is saved with success
semantics. -/
theorem syncOrderHistory_run (fetch : Nat → Nat → Except String (List OrderRec))
    (chainId now currentBlock : Nat) (w : World) (st : SyncStat)
    (hst : lookupStat w.statuses (.orders, chainId) = some st)
    (hrun : st.isRunning = false) :
    syncOrderHistoryForChain true (.ok currentBlock) fetch chainId now w =
      { w with
        orders := processBatches fetch currentBlock orderBatchSize
          (batchStarts ((computeFromBlock (st.lastSyncBlock : Int)
              (currentBlock : Int)).toNat) currentBlock orderBatchSize) w.orders,
        statuses := saveStat (saveStat w.statuses (markAsRunning st))
          (updateSync (markAsRunning st) now currentBlock true none) } := by
  simp [syncOrderHistoryForChain, getOrCreate_found w.statuses .orders chainId now st hst,
    hrun]

/-- C1: ingestion is idempotent.  If every fetched OrderCreated event is
already stored with identical content under its `(chainId, orderId)`
key, then (i) the upsert loop creates zero new Order documents and
leaves the store exactly unchanged (the keyed upsert updates in place,
so no duplicate-key error can arise), (ii) the whole batch loop over any
block range is a no-op on the store, and (iii) so is a full re-run of
the per-chain order-history sync. -/
theorem idempotentIngestion :
    (∀ (store events : List OrderRec),
        (∀ o ∈ events, lookupOrder store (okey o) = some o) →
          upsertAll store events = (store, 0)) ∧
    (∀ (fetch : Nat → Nat → Except String (List OrderRec))
        (currentBlock batchSize : Nat) (starts : List Nat) (store : List OrderRec),
        (∀ s ∈ starts, ∀ os, fetch s (batchEnd s currentBlock batchSize) = .ok os →
            ∀ o ∈ os, lookupOrder store (okey o) = some o) →
          processBatches fetch currentBlock batchSize starts store = store) ∧
    (∀ (fetch : Nat → Nat → Except String (List OrderRec))
        (chainId now currentBlock : Nat) (w : World) (st : SyncStat),
        lookupStat w.statuses (.orders, chainId) = some st →
        st.isRunning = false →
        (∀ s os, fetch s os = .error "" ∨
            ∀ os2, fetch s os = .ok os2 → ∀ o ∈ os2, lookupOrder w.orders (okey o) = some o) →
        (syncOrderHistoryForChain true (.ok currentBlock) fetch chainId now w).orders =
          w.orders) := by
  refine ⟨upsertAll_already, processBatches_already, ?_⟩
  intro fetch chainId now currentBlock w st hst hrun hfetch
  rw [syncOrderHistory_run fetch chainId now currentBlock w st hst hrun]
  refine processBatches_already _ _ _ _ _ ?_
  intro s _ os hf o ho
  rcases hfetch s (batchEnd s currentBlock orderBatchSize) with h | h
  · rw [h] at hf; cases hf
  · exact h os hf o ho

/-- A fully-populated order document used by concrete witnesses. -/
def demoOrder : OrderRec :=
  { chainId := 8453, orderId := "1", requestId := "req-1", userWallet := "0xabc"
    tokenAddress := "0xdef", amount := "1500000", txnHash := "0x11", blockNumber := 100123
    timestamp := 1700000 }

/-- C1 witness: upserting the already-stored `demoOrder` again creates
zero documents and leaves the store unchanged. -/
theorem idempotentIngestion_witness :
    (∀ o ∈ [demoOrder], lookupOrder [demoOrder] (okey o) = some o) ∧
    upsertAll [demoOrder] [demoOrder] = ([demoOrder], 0) :=
  ⟨by decide, idempotentIngestion.1 [demoOrder] [demoOrder] (by decide)⟩

/-- C4: when the stored running flag of the addressed `(kind, chain)`
cursor is true, the corresponding per-chain sync invocation returns
immediately: the whole world — Order store, ContractMetrics store and
the SyncStatus record itself (cursor, counters, flags) — is unchanged,
whatever the oracles would have returned. -/
theorem runningFlagSkips (w : World) (chainId now : Nat) :
    (∀ st, lookupStat w.statuses (.orders, chainId) = some st → st.isRunning = true →
      ∀ (isInit : Bool) (curBlock : Except String Nat)
        (fetch : Nat → Nat → Except String (List OrderRec)),
        syncOrderHistoryForChain isInit curBlock fetch chainId now w = w) ∧
    (∀ st, lookupStat w.statuses (.metrics, chainId) = some st → st.isRunning = true →
      ∀ (isInit : Bool) (metricsResult : Except String MetricsData)
        (curBlock : Except String Nat),
        syncContractMetricsForChain isInit metricsResult curBlock chainId now w = w) := by
  constructor
  · intro st hst hrun isInit curBlock fetch
    simp [syncOrderHistoryForChain, getOrCreate_found w.statuses .orders chainId now st hst,
      hrun]
  · intro st hst hrun isInit metricsResult curBlock
    simp [syncContractMetricsForChain,
      getOrCreate_found w.statuses .metrics chainId now st hst, hrun]

/-- A world whose cursors for chain 7 are both marked running. -/
def demoBusyWorld : World :=
  { orders := [demoOrder]
    metrics := []
    statuses :=
      [{ syncType := .orders, chainId := 7, lastSyncBlock := 500, lastSyncTimestamp := 0
         isRunning := true, lastError := none, successCount := 2, errorCount := 1 },
       { syncType := .metrics, chainId := 7, lastSyncBlock := 300, lastSyncTimestamp := 0
         isRunning := true, lastError := none, successCount := 1, errorCount := 0 }] }

/-- C4 witness: on `demoBusyWorld` both sync kinds for chain 7 are
no-ops. -/
theorem runningFlagSkips_witness :
    syncOrderHistoryForChain true (.ok 1000) (fun _ _ => .ok []) 7 99 demoBusyWorld =
        demoBusyWorld ∧
    syncContractMetricsForChain true
        (.ok { chainId := 7, orderCount := "5", totalVolume := "10"
               successfulOrders := "4", failedOrders := "1", timestamp := 99 })
        (.ok 1000) 7 99 demoBusyWorld = demoBusyWorld :=
  ⟨(runningFlagSkips demoBusyWorld 7 99).1
      { syncType := .orders, chainId := 7, lastSyncBlock := 500, lastSyncTimestamp := 0
        isRunning := true, lastError := none, successCount := 2, errorCount := 1 }
      (by decide) (by decide) true (.ok 1000) (fun _ _ => .ok []),
    (runningFlagSkips demoBusyWorld 7 99).2
      { syncType := .metrics, chainId := 7, lastSyncBlock := 300, lastSyncTimestamp := 0
        isRunning := true, lastError := none, successCount := 1, errorCount := 0 }
      (by decide) (by decide) true
      (.ok { chainId := 7, orderCount := "5", totalVolume := "10"
             successfulOrders := "4", failedOrders := "1", timestamp := 99 }) (.ok 1000)⟩

theorem lookupOrder_upsertOrder_self (store : List OrderRec) (o : OrderRec) :
    lookupOrder (upsertOrder store o).1 (okey o) = some o := by
  induction store with
  | nil => simp [upsertOrder, lookupOrder]
  | cons x xs ih =>
    by_cases hx : okey x = okey o
    · simp [upsertOrder, hx, lookupOrder]
    · simp [upsertOrder, hx, lookupOrder, ih]

theorem lookupOrder_upsertOrder_mono (store : List OrderRec) (o : OrderRec)
    (k : Nat × String) (h : (lookupOrder store k).isSome = true) :
    (lookupOrder (upsertOrder store o).1 k).isSome = true := by
  induction store with
  | nil => simp [lookupOrder] at h
  | cons x xs ih =>
    simp only [upsertOrder]
    by_cases hx : okey x = okey o
    · simp only [if_pos hx]
      by_cases hk : okey o = k
      · simp [lookupOrder, hk]
      · have hxk : ¬okey x = k := fun hc => hk (hx ▸ hc)
        simp only [lookupOrder, if_neg hxk] at h
        simp [lookupOrder, if_neg hk, h]
    · simp only [if_neg hx]
      by_cases hk : okey x = k
      · simp [lookupOrder, hk]
      · simp only [lookupOrder, if_neg hk] at h ⊢
        exact ih h

theorem lookupOrder_upsertAll_mono (os : List OrderRec) (store : List OrderRec)
    (k : Nat × String) (h : (lookupOrder store k).isSome = true) :
    (lookupOrder (upsertAll store os).1 k).isSome = true := by
  induction os generalizing store with
  | nil => exact h
  | cons o os ih =>
    simp only [upsertAll]
    exact ih _ (lookupOrder_upsertOrder_mono store o k h)

theorem lookupOrder_upsertAll_mem (os : List OrderRec) (store : List OrderRec)
    (o : OrderRec) (h : o ∈ os) :
    (lookupOrder (upsertAll store os).1 (okey o)).isSome = true := by
  induction os generalizing store with
  | nil => cases h
  | cons a os ih =>
    simp only [upsertAll]
    rcases List.mem_cons.mp h with h | h
    · subst h
      refine lookupOrder_upsertAll_mono os _ _ ?_
      rw [lookupOrder_upsertOrder_self]
      rfl
    · exact ih _ h

theorem lookupOrder_processBatches_mono (fetch : Nat → Nat → Except String (List OrderRec))
    (currentBlock batchSize : Nat) (starts : List Nat) (store : List OrderRec)
    (k : Nat × String) (h : (lookupOrder store k).isSome = true) :
    (lookupOrder (processBatches fetch currentBlock batchSize starts store) k).isSome = true := by
  induction starts generalizing store with
  | nil => exact h
  | cons s rest ih =>
    simp only [processBatches, List.foldl_cons] at *
    cases hf : fetch s (batchEnd s currentBlock batchSize) with
    | ok os =>
      simp only [hf]
      exact ih _ (lookupOrder_upsertAll_mono os store k h)
    | error e =>
      simp only [hf]
      exact ih _ h

theorem lookupOrder_processBatches_mem (fetch : Nat → Nat → Except String (List OrderRec))
    (currentBlock batchSize : Nat) (starts : List Nat) (store : List OrderRec)
    (s : Nat) (os : List OrderRec) (o : OrderRec) (hs : s ∈ starts)
    (hf : fetch s (batchEnd s currentBlock batchSize) = .ok os) (ho : o ∈ os) :
    (lookupOrder (processBatches fetch currentBlock batchSize starts store)
      (okey o)).isSome = true := by
  induction starts generalizing store with
  | nil => cases hs
  | cons a rest ih =>
    simp only [processBatches, List.foldl_cons] at *
    rcases List.mem_cons.mp hs with h | h
    · subst h
      simp only [hf]
      exact lookupOrder_processBatches_mono fetch currentBlock batchSize rest _ _
        (lookupOrder_upsertAll_mem os store o ho)
    · cases hfa : fetch a (batchEnd a currentBlock batchSize) with
      | ok os2 =>
        simp only [hfa]
        exact ih _ h
      | error e =>
        simp only [hfa]
        exact ih _ h

/-- The success outcome C3 asserts of a happy-path order-history sync in
which individual sub-batches may have failed: every order returned by a
successful sub-batch fetch is present in the final Order store, and the
cursor document is saved with success semantics — success counter
incremented, error counter untouched, error message null, cursor moved
to `max(previous, target)`, running flag cleared. -/
def orderSyncSuccessSpec (fetch : Nat → Nat → Except String (List OrderRec))
    (chainId now currentBlock : Nat) (w : World) (st : SyncStat) : Prop :=
  (∀ s ∈ batchStarts ((computeFromBlock (st.lastSyncBlock : Int)
        (currentBlock : Int)).toNat) currentBlock orderBatchSize, ∀ os,
      fetch s (batchEnd s currentBlock orderBatchSize) = .ok os →
        ∀ o ∈ os,
          (lookupOrder
            (syncOrderHistoryForChain true (.ok currentBlock) fetch chainId now w).orders
            (okey o)).isSome = true) ∧
  lookupStat
      (syncOrderHistoryForChain true (.ok currentBlock) fetch chainId now w).statuses
      (.orders, chainId) =
    some (updateSync (markAsRunning st) now currentBlock true none) ∧
  (updateSync (markAsRunning st) now currentBlock true none).successCount =
    st.successCount + 1 ∧
  (updateSync (markAsRunning st) now currentBlock true none).errorCount = st.errorCount ∧
  (updateSync (markAsRunning st) now currentBlock true none).lastError = none ∧
  (updateSync (markAsRunning st) now currentBlock true none).lastSyncBlock =
    max st.lastSyncBlock currentBlock ∧
  (updateSync (markAsRunning st) now currentBlock true none).isRunning = false

/-- C3: in a multi-batch order-history sync where any subset of
sub-batch fetches fails, the events of every successful sub-batch are
still upserted into the Order store, and on completion the SyncStatus is
updated with success semantics, provided nothing escapes the top level
(idle cursor, initialized service, current block known). -/
theorem partialBatchResilience (fetch : Nat → Nat → Except String (List OrderRec))
    (chainId now currentBlock : Nat) (w : World) (st : SyncStat)
    (hst : lookupStat w.statuses (.orders, chainId) = some st)
    (hrun : st.isRunning = false) :
    orderSyncSuccessSpec fetch chainId now currentBlock w st := by
  have hw := syncOrderHistory_run fetch chainId now currentBlock w st hst hrun
  have hkey0 : skey st = (SyncKind.orders, chainId) := lookupStat_key _ _ _ hst
  have hkey : skey (updateSync (markAsRunning st) now currentBlock true none) =
      (SyncKind.orders, chainId) := hkey0
  refine ⟨?_, ?_, rfl, rfl, rfl, rfl, rfl⟩
  · intro s hs os hf o ho
    rw [hw]
    exact lookupOrder_processBatches_mem fetch currentBlock orderBatchSize _ w.orders
      s os o hs hf ho
  · rw [hw]
    have := lookupStat_saveStat_self (saveStat w.statuses (markAsRunning st))
      (updateSync (markAsRunning st) now currentBlock true none)
    rw [hkey] at this
    exact this

/-- World for the C3 witness: an idle, never-synced cursor for chain 7. -/
def demoIdleWorld : World :=
  { orders := []
    metrics := []
    statuses :=
      [{ syncType := .orders, chainId := 7, lastSyncBlock := 0, lastSyncTimestamp := 0
         isRunning := false, lastError := none, successCount := 0, errorCount := 0 }] }

/-- Fetch oracle for the C3 witness: the middle sub-batch of the range
[0, 12000] fails; the first and last return one order each. -/
def demoFetch : Nat → Nat → Except String (List OrderRec) :=
  fun s _ =>
    if s = 5000 then .error "missing trie node"
    else if s = 0 then .ok [demoOrder]
    else .ok [{ demoOrder with orderId := "2", txnHash := "0x22" }]

/-- C3 witness: on the concrete three-batch range with a failing middle
batch, the sync still satisfies the success outcome. -/
theorem partialBatchResilience_witness :
    (lookupStat demoIdleWorld.statuses (.orders, 7) =
        some { syncType := .orders, chainId := 7, lastSyncBlock := 0, lastSyncTimestamp := 0
               isRunning := false, lastError := none, successCount := 0, errorCount := 0 } ∧
      ({ syncType := .orders, chainId := 7, lastSyncBlock := 0, lastSyncTimestamp := 0
         isRunning := false, lastError := none, successCount := 0,
         errorCount := 0 } : SyncStat).isRunning = false) ∧
    orderSyncSuccessSpec demoFetch 7 99 12000 demoIdleWorld
      { syncType := .orders, chainId := 7, lastSyncBlock := 0, lastSyncTimestamp := 0
        isRunning := false, lastError := none, successCount := 0, errorCount := 0 } :=
  ⟨⟨by decide, by decide⟩,
    partialBatchResilience demoFetch 7 99 12000 demoIdleWorld _ (by decide) (by decide)⟩

/-- Cache for the C6 witness: one entry for tether, long expired at the
time of the call. -/
def demoCache : List (String × CacheEntry) :=
  [("tether", { prices := { usd := some 1, ngn := some 1536 }, timestamp := 0 })]

/-- C6 witness: with the upstream failing and a stale cache entry for
tether only, a request for tether and bitcoin succeeds with the cached
tether value rather than raising. -/
theorem priceFallbackOnUpstreamFailure_witness :
    (∃ r, (fetchPrices 300000 demoCache 999999999 ["tether", "bitcoin"] (.error ())).1 =
        .ok r) ∧
    (fetchPrices 300000 demoCache 999999999 ["tether", "bitcoin"] (.error ())).1 =
      .ok [("tether", { usd := some 1, ngn := some 1536 })] :=
  ⟨(priceFallbackOnUpstreamFailure 300000 demoCache 999999999 ["tether", "bitcoin"]).1.mpr
      (Or.inr ⟨"tether", by decide, by decide⟩),
    rfl⟩

end Paycrypt
